import Mathlib

/-!
Verification of the Luma scheduling/scoring engine.

Shallow embedding conventions:
* A calendar date is an `Int`: the number of days since 1970-01-01.  The
  source manipulates dates either as `Date` objects normalised with
  `startOfDay` or as ISO `YYYY-MM-DD` strings; both orderings coincide with
  the integer ordering, `addDays` is integer addition and `differenceInDays`
  is integer subtraction.  `getDay` (0 = Sunday) becomes `(d + 4) % 7`
  because 1970-01-01 was a Thursday.
* JS numbers are modelled as `Rat` (all arithmetic appearing in the engine
  is exact on the values involved).  The rational operations are spelled
  `jsAdd`, `jsSub`, `jsMul`, `jsDiv` (definitionally computable versions of
  `+`, `-`, `*`, `/` on `Rat`; the bridge lemmas `jsAdd_eq` … prove them
  equal to the library operations), and decimal literals such as `0.40`
  are spelled `mkRat 40 100`.
* `Array.prototype.sort` (stable in the engines the app targets) is
  modelled by a stable insertion sort parameterised by the comparator.
* "today" (`new Date()` in the source) is passed explicitly.
-/

namespace Luma

/-- Computable JS addition on exact rationals. -/
def jsAdd (a b : Rat) : Rat := mkRat (a.num * b.den + b.num * a.den) (a.den * b.den)

/-- Computable JS subtraction on exact rationals. -/
def jsSub (a b : Rat) : Rat := mkRat (a.num * b.den - b.num * a.den) (a.den * b.den)

/-- Computable JS multiplication on exact rationals. -/
def jsMul (a b : Rat) : Rat := mkRat (a.num * b.num) (a.den * b.den)

/-- Computable JS division on exact rationals. -/
def jsDiv (a b : Rat) : Rat := Rat.divInt (a.num * b.den) (a.den * b.num)

theorem jsAdd_eq (a b : Rat) : jsAdd a b = a + b := by
  have ha : ((a.den : ℚ)) ≠ 0 := by exact_mod_cast a.den_ne_zero
  have hb : ((b.den : ℚ)) ≠ 0 := by exact_mod_cast b.den_ne_zero
  have ha2 : ((a.num : ℚ)) = a * a.den := (div_eq_iff ha).mp (Rat.num_div_den a)
  have hb2 : ((b.num : ℚ)) = b * b.den := (div_eq_iff hb).mp (Rat.num_div_den b)
  rw [jsAdd, Rat.mkRat_eq_divInt, Rat.divInt_eq_div]
  push_cast
  rw [div_eq_iff (mul_ne_zero ha hb), ha2, hb2]
  ring

theorem jsSub_eq (a b : Rat) : jsSub a b = a - b := by
  have ha : ((a.den : ℚ)) ≠ 0 := by exact_mod_cast a.den_ne_zero
  have hb : ((b.den : ℚ)) ≠ 0 := by exact_mod_cast b.den_ne_zero
  have ha2 : ((a.num : ℚ)) = a * a.den := (div_eq_iff ha).mp (Rat.num_div_den a)
  have hb2 : ((b.num : ℚ)) = b * b.den := (div_eq_iff hb).mp (Rat.num_div_den b)
  rw [jsSub, Rat.mkRat_eq_divInt, Rat.divInt_eq_div]
  push_cast
  rw [div_eq_iff (mul_ne_zero ha hb), ha2, hb2]
  ring

theorem jsMul_eq (a b : Rat) : jsMul a b = a * b := by
  have ha : ((a.den : ℚ)) ≠ 0 := by exact_mod_cast a.den_ne_zero
  have hb : ((b.den : ℚ)) ≠ 0 := by exact_mod_cast b.den_ne_zero
  have ha2 : ((a.num : ℚ)) = a * a.den := (div_eq_iff ha).mp (Rat.num_div_den a)
  have hb2 : ((b.num : ℚ)) = b * b.den := (div_eq_iff hb).mp (Rat.num_div_den b)
  rw [jsMul, Rat.mkRat_eq_divInt, Rat.divInt_eq_div]
  push_cast
  rw [div_eq_iff (mul_ne_zero ha hb), ha2, hb2]
  ring

theorem jsDiv_eq (a b : Rat) : jsDiv a b = a / b := by
  rcases eq_or_ne b 0 with hb | hb
  · subst hb
    simp [jsDiv]
  · have ha : ((a.den : ℚ)) ≠ 0 := by exact_mod_cast a.den_ne_zero
    have hbd : ((b.den : ℚ)) ≠ 0 := by exact_mod_cast b.den_ne_zero
    have hbn : ((b.num : ℚ)) ≠ 0 := by exact_mod_cast Rat.num_ne_zero.mpr hb
    have ha2 : ((a.num : ℚ)) = a * a.den := (div_eq_iff ha).mp (Rat.num_div_den a)
    have hb2 : ((b.num : ℚ)) = b * b.den := (div_eq_iff hbd).mp (Rat.num_div_den b)
    rw [jsDiv, Rat.divInt_eq_div]
    push_cast
    rw [div_eq_div_iff (mul_ne_zero ha hbn) hb, ha2, hb2]
    ring

/-- Cycle phase (cycleHelpers.js). -/
inductive Phase where
  | menstrual
  | follicular
  | ovulation
  | luteal
deriving DecidableEq

/-- Task energy level (`low` / `medium` / `high`). -/
inductive Energy where
  | low
  | medium
  | high
deriving DecidableEq

/-- A `{start, end}` window of `calculatePhasesFromStart`; `stop` stands for
the reserved word `end`. -/
structure PhaseWindow where
  start : Int
  stop : Int
deriving DecidableEq

/-- The four precomputed phase windows stored on a cycle. -/
structure CyclePhases where
  menstrual : PhaseWindow
  follicular : PhaseWindow
  ovulation : PhaseWindow
  luteal : PhaseWindow
deriving DecidableEq

/-- A logged cycle record (the fields used by the engine). -/
structure Cycle where
  startDate : Int
  endDate : Option Int
  menstrualDuration : Option Int
  cycleLength : Option Int
  phases : Option CyclePhases
deriving DecidableEq

/-- A task record (the fields used by the engine).  `preferredDays` stores
JS weekday indices (0 = Sunday) standing in for the day-name strings. -/
structure Task where
  id : Nat
  energyLevel : Option Energy
  deadline : Option Int
  preferredDays : List Int
  scheduledDate : Option Int
  completed : Bool
  autoScheduled : Bool
deriving DecidableEq

/-- The four scoring weights (`userPreferences.schedulingWeights`). -/
structure SchedulingWeights where
  energyMatch : Rat
  deadlineUrgency : Rat
  workloadBalance : Rat
  dayPreference : Rat
deriving DecidableEq

/-- User preferences consumed by the engine. -/
structure UserPreferences where
  dailyTaskLimit : Option Int
  schedulingWeights : Option SchedulingWeights
  reschedulingBehavior : String
deriving DecidableEq

/-- The `{}` default used when the source omits the preferences argument. -/
def emptyPrefs : UserPreferences :=
  { dailyTaskLimit := none, schedulingWeights := none, reschedulingBehavior := "" }

/-- JS `getDay`: 0 = Sunday .. 6 = Saturday; day 0 (1970-01-01) is Thursday. -/
def getDay (d : Int) : Int :=
  (d + 4) % 7

/-- `[0, 6].includes(date.getDay())` from `calculateDayPreferenceScore`. -/
def isWeekend (d : Int) : Bool :=
  getDay d == 0 || getDay d == 6

/-- JS `Math.round` on the (exact) rational value: round half toward +inf. -/
def jsRound (x : Rat) : Int :=
  (jsAdd x (mkRat 1 2)).floor

/-- JS `Math.floor` of a quotient of integers. -/
def jsFloorDiv (a b : Int) : Int :=
  Int.fdiv a b

/-- JS `Math.ceil` of a quotient of integers. -/
def jsCeilDiv (a b : Int) : Int :=
  -(Int.fdiv (-a) b)

/-- Stable insert for `jsSortBy`: `le x y` means the comparator allows `x`
before `y` (`cmp x y <= 0`). -/
def insertBy (le : α → α → Bool) (x : α) : List α → List α
  | [] => [x]
  | y :: ys => if le x y then x :: y :: ys else y :: insertBy le x ys

/-- Stable sort modelling `Array.prototype.sort(cmp)`: an element is placed
before a later element exactly when the comparator says so or ties. -/
def jsSortBy (le : α → α → Bool) : List α → List α
  | [] => []
  | x :: xs => insertBy le x (jsSortBy le xs)

/-- Fixed per-phase capacity multipliers (capacityHelpers.js,
`PHASE_MULTIPLIERS`): 0.50 / 0.75 / 1.25 / 0.75. -/
def PHASE_MULTIPLIERS : Phase → Rat
  | .menstrual => mkRat 50 100
  | .follicular => mkRat 75 100
  | .ovulation => mkRat 125 100
  | .luteal => mkRat 75 100

/-- `DEFAULT_DAILY_LIMIT` in capacityHelpers.js. -/
def DEFAULT_DAILY_LIMIT : Int := 4

/-- `userPreferences.dailyTaskLimit || DEFAULT_DAILY_LIMIT` (0 is falsy). -/
def baseDailyLimit (userPreferences : UserPreferences) : Int :=
  match userPreferences.dailyTaskLimit with
  | none => DEFAULT_DAILY_LIMIT
  | some b => if b = 0 then DEFAULT_DAILY_LIMIT else b

/-- `getCapacityForPhase` (capacityHelpers.js):
`Math.max(1, Math.round(base * multiplier))`. -/
def getCapacityForPhase (phase : Phase) (userPreferences : UserPreferences) : Int :=
  max 1 (jsRound (jsMul (baseDailyLimit userPreferences) (PHASE_MULTIPLIERS phase)))

theorem getCapacityForPhase_pos (phase : Phase) (prefs : UserPreferences) :
    1 ≤ getCapacityForPhase phase prefs := by
  simp [getCapacityForPhase]

/-- `calculatePhasesFromStart` (cycleHelpers.js): menstrual day 1..M,
follicular day M+1..13, ovulation day 14..15, luteal day 16..L. -/
def calculatePhasesFromStart (startDate menstrualDuration cycleLength : Int) : CyclePhases :=
  { menstrual := { start := startDate, stop := startDate + menstrualDuration - 1 }
    follicular := { start := startDate + menstrualDuration, stop := startDate + 12 }
    ovulation := { start := startDate + 13, stop := startDate + 14 }
    luteal := { start := startDate + 15, stop := startDate + cycleLength - 1 } }

/-- The four ordered window comparisons shared by `getPhaseForDate` and the
predictive/projective branches of `getPhaseForDateAdvanced`. -/
def windowPhase (dateStr : Int) (phases : CyclePhases) : Option Phase :=
  if phases.menstrual.start ≤ dateStr ∧ dateStr ≤ phases.menstrual.stop then
    some .menstrual
  else if phases.follicular.start ≤ dateStr ∧ dateStr ≤ phases.follicular.stop then
    some .follicular
  else if phases.ovulation.start ≤ dateStr ∧ dateStr ≤ phases.ovulation.stop then
    some .ovulation
  else if phases.luteal.start ≤ dateStr ∧ dateStr ≤ phases.luteal.stop then
    some .luteal
  else
    none

/-- `getPhaseForDate` (cycleHelpers.js): match a date against a cycle's
precomputed windows in fixed order; `null` when the cycle has no phases. -/
def getPhaseForDate (targetDate : Int) (cycle : Cycle) : Option Phase :=
  match cycle.phases with
  | none => none
  | some phases => windowPhase targetDate phases

/-- Comparator `(a, b) => new Date(a.startDate) - new Date(b.startDate)`
(ascending by start date) as a "may come before" relation. -/
def cycleAscLe (a b : Cycle) : Bool :=
  decide (a.startDate ≤ b.startDate)

/-- Comparator `(a, b) => new Date(b.startDate) - new Date(a.startDate)`
(descending by start date, newest first) as a "may come before" relation. -/
def cycleDescLe (a b : Cycle) : Bool :=
  decide (b.startDate ≤ a.startDate)

/-- `calculateAverageCycleLength` (cycleHelpers.js): average of consecutive
start-date gaps in 21..45 days, defaulting to 28. -/
def calculateAverageCycleLength (cycles : List Cycle) : Int :=
  if cycles.length < 2 then 28
  else
    let sorted := jsSortBy cycleAscLe cycles
    let diffs := (sorted.zip sorted.tail).map fun p => p.2.startDate - p.1.startDate
    let valid := diffs.filter fun d => decide (21 ≤ d) && decide (d ≤ 45)
    if 0 < valid.length then jsRound (Rat.divInt valid.sum valid.length) else 28

/-- `calculateAverageMenstrualDuration` (cycleHelpers.js): average of the
stored positive `menstrualDuration` fields, defaulting to 5. -/
def calculateAverageMenstrualDuration (cycles : List Cycle) : Int :=
  if cycles.isEmpty then 5
  else
    let durationsWithData :=
      (cycles.filterMap fun c => c.menstrualDuration).filter fun d => decide (0 < d)
    if durationsWithData.isEmpty then 5
    else jsRound (Rat.divInt durationsWithData.sum durationsWithData.length)

/-- The predictive (future) and projective (before first log) tiers of
`getPhaseForDateAdvanced`, entered when no logged cycle matched.  `latest`
is the head and `oldest` the last entry of the newest-first sorted list. -/
def advancedFallback (dateStr : Int) (cycles : List Cycle) (latest oldest : Cycle) :
    Option Phase :=
  let daysDiff := dateStr - latest.startDate
  let avgCycleLength := calculateAverageCycleLength cycles
  let avgMenstrualDuration := calculateAverageMenstrualDuration cycles
  let predicted : Option Phase :=
    if 0 < daysDiff then
      let cycleNumber := jsFloorDiv daysDiff avgCycleLength
      let predictedCycleStart := latest.startDate + cycleNumber * avgCycleLength
      windowPhase dateStr
        (calculatePhasesFromStart predictedCycleStart avgMenstrualDuration avgCycleLength)
    else none
  match predicted with
  | some p => some p
  | none =>
    if dateStr < oldest.startDate then
      let daysBack := oldest.startDate - dateStr
      let cyclesBack := jsCeilDiv daysBack avgCycleLength
      let projectedStart := oldest.startDate - cyclesBack * avgCycleLength
      windowPhase dateStr
        (calculatePhasesFromStart projectedStart avgMenstrualDuration avgCycleLength)
    else none

/-- `getPhaseForDateAdvanced` (cycleHelpers.js): logged cycles first (newest
wins), then forward prediction, then backward projection, else `null`. -/
def getPhaseForDateAdvanced (targetDate : Int) (cycles : List Cycle) : Option Phase :=
  if cycles.isEmpty then none
  else
    let sorted := jsSortBy cycleDescLe cycles
    match sorted.findSome? (fun c => getPhaseForDate targetDate c) with
    | some p => some p
    | none =>
      match sorted with
      | [] => none
      | latest :: rest => advancedFallback targetDate cycles latest (rest.getLastD latest)

/-- The `|| 'luteal'` default applied by every caller of
`getPhaseForDateAdvanced` in the scheduling path. -/
def dayPhase (cycles : List Cycle) (targetDate : Int) : Phase :=
  (getPhaseForDateAdvanced targetDate cycles).getD .luteal

/-- Per-candidate score record of `scoreDate` (taskScoringEngine.js). -/
structure Breakdown where
  energyMatch : Rat
  deadlineUrgency : Rat
  workloadBalance : Rat
  dayPreference : Rat
deriving DecidableEq

/-- `{ date, totalScore, breakdown, phase }` returned by `scoreDate`. -/
structure ScoreResult where
  date : Int
  totalScore : Rat
  breakdown : Breakdown
  phase : Phase
deriving DecidableEq

/-- `perfectMatches` table of `calculateEnergyMatchScore`. -/
def perfectMatches : Energy → List Phase
  | .high => [.ovulation]
  | .medium => [.follicular, .luteal]
  | .low => [.luteal, .menstrual]

/-- `goodMatches` table of `calculateEnergyMatchScore`. -/
def goodMatches : Energy → List Phase
  | .high => [.follicular]
  | .medium => [.ovulation]
  | .low => [.follicular]

/-- `calculateEnergyMatchScore` (taskScoringEngine.js). -/
def calculateEnergyMatchScore (task : Task) (phase : Phase) : Rat :=
  match task.energyLevel with
  | none => 50
  | some e =>
    if (perfectMatches e).contains phase then 100
    else if (goodMatches e).contains phase then 60
    else 20

/-- `calculateDeadlineUrgencyScore` (taskScoringEngine.js). -/
def calculateDeadlineUrgencyScore (task : Task) (date : Int) : Rat :=
  match task.deadline with
  | none => 50
  | some deadline =>
    let daysUntilDeadline := deadline - date
    if daysUntilDeadline < 0 then 0
    else if daysUntilDeadline = 0 then 30
    else if daysUntilDeadline = 1 then 95
    else if daysUntilDeadline = 2 then 90
    else if daysUntilDeadline ≤ 7 then 80
    else if daysUntilDeadline ≤ 14 then 60
    else if daysUntilDeadline ≤ 30 then 40
    else 20

/-- `existingTasks.filter(t => t.scheduledDate === dateStr && !t.completed)`
shared by the workload score and the capacity check. -/
def tasksOnDate (existingTasks : List Task) (date : Int) : Nat :=
  (existingTasks.filter fun t => t.scheduledDate == some date && !t.completed).length

/-- `calculateWorkloadBalanceScore` (taskScoringEngine.js). -/
def calculateWorkloadBalanceScore (date : Int) (existingTasks : List Task)
    (phase : Phase) (userPreferences : UserPreferences) : Rat :=
  let capacity := getCapacityForPhase phase userPreferences
  let utilization := jsDiv (tasksOnDate existingTasks date) capacity
  if utilization = 0 then 100
  else if utilization < mkRat 3 10 then 90
  else if utilization < mkRat 5 10 then 80
  else if utilization < mkRat 7 10 then 60
  else if utilization < mkRat 85 100 then 40
  else if utilization < 1 then 20
  else 0

/-- `calculateDayPreferenceScore` (taskScoringEngine.js). -/
def calculateDayPreferenceScore (task : Task) (date : Int) : Rat :=
  if 0 < task.preferredDays.length then
    if task.preferredDays.contains (getDay date) then 100 else 0
  else if isWeekend date then 60
  else 80

/-- The default weights 0.40 / 0.30 / 0.20 / 0.10 of `scoreDate`. -/
def defaultWeights : SchedulingWeights :=
  { energyMatch := mkRat 40 100, deadlineUrgency := mkRat 30 100
    workloadBalance := mkRat 20 100, dayPreference := mkRat 10 100 }

/-- `scoreDate` (taskScoringEngine.js): weighted sum of the four sub-scores
with the phase defaulted to luteal when unresolved. -/
def scoreDate (date : Int) (task : Task) (existingTasks : List Task)
    (cycles : List Cycle) (userPreferences : UserPreferences) : ScoreResult :=
  let weights := (userPreferences.schedulingWeights).getD defaultWeights
  let phase := dayPhase cycles date
  let breakdown : Breakdown :=
    { energyMatch := calculateEnergyMatchScore task phase
      deadlineUrgency := calculateDeadlineUrgencyScore task date
      workloadBalance := calculateWorkloadBalanceScore date existingTasks phase userPreferences
      dayPreference := calculateDayPreferenceScore task date }
  let totalScore :=
    jsAdd (jsAdd (jsAdd (jsMul breakdown.energyMatch weights.energyMatch)
      (jsMul breakdown.deadlineUrgency weights.deadlineUrgency))
      (jsMul breakdown.workloadBalance weights.workloadBalance))
      (jsMul breakdown.dayPreference weights.dayPreference)
  { date := date, totalScore := totalScore, breakdown := breakdown, phase := phase }

/-- `isPast` (dateHelpers.js): strictly before today. -/
def isPast (date today : Int) : Bool :=
  decide (date < today)

/-- `canScheduleOnDate` (taskScheduler.js). -/
def canScheduleOnDate (date today : Int) : Bool :=
  !isPast date today

/-- The `while (current <= end)` loop of `generateCandidateDates`, with the
remaining number of iterations made explicit. -/
def generateCandidateDatesAux (current : Int) : Nat → List Int
  | 0 => []
  | n + 1 => current :: generateCandidateDatesAux (current + 1) n

/-- `generateCandidateDates` (taskScheduler.js): every date between
`startDate` and `endDate` inclusive. -/
def generateCandidateDates (startDate endDate : Int) : List Int :=
  generateCandidateDatesAux startDate (endDate - startDate + 1).toNat

/-- `isDateAvailable` (taskScheduler.js): not past and under capacity. -/
def isDateAvailable (date : Int) (existingTasks : List Task) (phase : Phase)
    (userPreferences : UserPreferences) (today : Int) : Bool :=
  canScheduleOnDate date today &&
    decide ((tasksOnDate existingTasks date : Int) < getCapacityForPhase phase userPreferences)

/-- Comparator `(a, b) => b.totalScore - a.totalScore` (descending score)
as a "may come before" relation. -/
def scoreDescLe (a b : ScoreResult) : Bool :=
  decide (b.totalScore ≤ a.totalScore)

/-- `findBestFallbackDate` (taskScheduler.js): capacity dropped, deadline
kept, absolute last resort `today + 1`. -/
def findBestFallbackDate (task : Task) (existingTasks : List Task) (cycles : List Cycle)
    (startDate endDate : Int) (userPreferences : UserPreferences) (today : Int) : Int :=
  let candidates := (generateCandidateDates startDate endDate).filter
    fun d => canScheduleOnDate d today
  let candidates :=
    match task.deadline with
    | some deadline => candidates.filter fun d => decide (d < deadline)
    | none => candidates
  match jsSortBy scoreDescLe
      (candidates.map fun d => scoreDate d task existingTasks cycles userPreferences) with
  | s :: _ => s.date
  | [] => today + 1

/-- `scheduleTask` (taskScheduler.js): hard constraints (not past, strictly
before deadline, capacity), best score wins, fallback cascade. -/
def scheduleTask (task : Task) (existingTasks : List Task) (cycles : List Cycle)
    (userPreferences : UserPreferences) (today : Int) : Int :=
  let maxDate :=
    match task.deadline with
    | some deadline => deadline
    | none => today + 60
  let candidates := (generateCandidateDates today maxDate).filter
    fun d => canScheduleOnDate d today
  let candidates :=
    match task.deadline with
    | some deadline => candidates.filter fun d => decide (d < deadline)
    | none => candidates
  let candidates := candidates.filter
    fun d => isDateAvailable d existingTasks (dayPhase cycles d) userPreferences today
  match jsSortBy scoreDescLe
      (candidates.map fun d => scoreDate d task existingTasks cycles userPreferences) with
  | s :: _ => s.date
  | [] => findBestFallbackDate task existingTasks cycles today maxDate userPreferences today

/-- A `{ phase, start, end }` run of consecutive same-phase days
(overloadDetector.js); `stop` stands for the reserved word `end`. -/
structure PhasePeriod where
  phase : Phase
  start : Int
  stop : Int
deriving DecidableEq

/-- One iteration of the day loop of `getUpcomingPhasePeriods`. -/
def phasePeriodStep (cycles : List Cycle) (today : Int)
    (acc : List PhasePeriod × Option PhasePeriod) (i : Nat) :
    List PhasePeriod × Option PhasePeriod :=
  let date := today + i
  let phase := dayPhase cycles date
  match acc.2 with
  | none => (acc.1, some { phase := phase, start := date, stop := date })
  | some current =>
    if current.phase = phase then
      (acc.1, some { phase := current.phase, start := current.start, stop := date })
    else
      (acc.1 ++ [current], some { phase := phase, start := date, stop := date })

/-- `getUpcomingPhasePeriods` (overloadDetector.js): group the next
`daysAhead` days into consecutive same-phase periods. -/
def getUpcomingPhasePeriods (cycles : List Cycle) (daysAhead : Nat) (today : Int) :
    List PhasePeriod :=
  match (List.range daysAhead).foldl (phasePeriodStep cycles today) ([], none) with
  | (periods, some current) => periods ++ [current]
  | (periods, none) => periods

/-- Warning severity. -/
inductive Severity where
  | low
  | medium
  | high
deriving DecidableEq

/-- A warning of `detectOverloadSituations`; the human-readable `message`
and `recommendation` strings are not modelled, the identifying data
(`id` is derived from the period start or task id) is. -/
inductive Warning where
  | overload (severity : Severity) (phaseStart phaseStop : Int) (taskCount : Nat)
      (affectedTasks : List Task)
  | energyMismatch (severity : Severity) (phase : Phase) (task : Task)
  | underutilized (severity : Severity) (phaseStart phaseStop : Int) (availableSlots : Int)
deriving DecidableEq

/-- Discriminator for `type: 'overload'`. -/
def Warning.isOverload : Warning → Bool
  | .overload .. => true
  | _ => false

/-- Discriminator for `type: 'energy_mismatch'`. -/
def Warning.isEnergyMismatch : Warning → Bool
  | .energyMismatch .. => true
  | _ => false

/-- The severity field of a warning. -/
def Warning.severity : Warning → Severity
  | .overload s _ _ _ _ => s
  | .energyMismatch s _ _ => s
  | .underutilized s _ _ _ => s

/-- `tasks.filter(t => !t.completed && t.scheduledDate)`. -/
def isActiveTask (t : Task) : Bool :=
  !t.completed && t.scheduledDate.isSome

/-- `t.scheduledDate >= periodStart && t.scheduledDate <= periodEnd`. -/
def taskInPeriod (t : Task) (period : PhasePeriod) : Bool :=
  match t.scheduledDate with
  | some d => decide (period.start ≤ d) && decide (d ≤ period.stop)
  | none => false

/-- The warnings pushed for one phase period by the loop body of
`detectOverloadSituations`: overload, energy mismatches, underutilized. -/
def warningsForPeriod (userPreferences : UserPreferences) (activeTasks : List Task)
    (period : PhasePeriod) : List Warning :=
  let tasksInPhase := activeTasks.filter fun t => taskInPeriod t period
  let overloadWarnings : List Warning :=
    if period.phase = .menstrual ∧ 3 < tasksInPhase.length then
      let highEnergyCount := (tasksInPhase.filter fun t => t.energyLevel == some .high).length
      [.overload (if 0 < highEnergyCount then .high else .medium) period.start period.stop
        tasksInPhase.length tasksInPhase]
    else []
  let mismatchWarnings : List Warning :=
    if period.phase = .menstrual ∨ period.phase = .luteal then
      (tasksInPhase.filter fun t => t.energyLevel == some .high).map
        fun t => .energyMismatch .medium period.phase t
    else []
  let underutilizedWarnings : List Warning :=
    if period.phase = .ovulation then
      let availableSlots :=
        getCapacityForPhase .ovulation userPreferences - tasksInPhase.length
      if 2 ≤ availableSlots then
        [.underutilized .low period.start period.stop availableSlots]
      else []
    else []
  overloadWarnings ++ mismatchWarnings ++ underutilizedWarnings

/-- `detectOverloadSituations` (overloadDetector.js). -/
def detectOverloadSituations (tasks : List Task) (cycles : List Cycle)
    (userPreferences : UserPreferences) (today : Int) : List Warning :=
  if tasks.isEmpty || cycles.isEmpty then []
  else
    let activeTasks := tasks.filter isActiveTask
    (((getUpcomingPhasePeriods cycles 30 today).map
      (warningsForPeriod userPreferences activeTasks))).flatten

/-- `OVULATION_CAPACITY` (optimizationEngine.js). -/
def OVULATION_CAPACITY : Int := 5

/-- A pull-forward candidate entry (optimizationEngine.js). -/
structure PullCandidate where
  task : Task
  currentDate : Int
  suggestedDate : Int
  energyMatch : String
deriving DecidableEq

/-- A pull-forward suggestion group (optimizationEngine.js). -/
structure PullGroup where
  period : PhasePeriod
  availableSlots : Int
  candidates : List PullCandidate
deriving DecidableEq

/-- The candidate filter of `suggestPullForward`: scheduled after the
period, no deadline, medium/high energy, auto-scheduled. -/
def pullCandidateFilter (period : PhasePeriod) (t : Task) : Bool :=
  (match t.scheduledDate with
    | some d => decide (period.stop < d)
    | none => false) &&
  t.deadline.isNone &&
  (t.energyLevel == some .high || t.energyLevel == some .medium) &&
  t.autoScheduled

/-- The candidate comparator of `suggestPullForward`: high energy first,
then earlier scheduled date, as a "may come before" relation. -/
def pullForwardLe (a b : Task) : Bool :=
  if a.energyLevel == some .high && !(b.energyLevel == some .high) then true
  else if b.energyLevel == some .high && !(a.energyLevel == some .high) then false
  else decide (a.scheduledDate.getD 0 ≤ b.scheduledDate.getD 0)

/-- `findBestDateInPeriod` (optimizationEngine.js): best-scoring day inside
the window, clamped to today; preferences are left at their `{}` default. -/
def findBestDateInPeriod (periodStart periodStop : Int) (task : Task)
    (allTasks : List Task) (cycles : List Cycle) (today : Int) : Int :=
  let start := if periodStart < today then today else periodStart
  let candidates := generateCandidateDates start periodStop
  match jsSortBy scoreDescLe
      (candidates.map fun d => scoreDate d task allTasks cycles emptyPrefs) with
  | s :: _ => s.date
  | [] => periodStart

/-- `suggestPullForward` (optimizationEngine.js). -/
def suggestPullForward (tasks : List Task) (cycles : List Cycle) (today : Int) :
    List PullGroup :=
  if tasks.isEmpty || cycles.isEmpty then []
  else
    let ovulationPeriods :=
      (getUpcomingPhasePeriods cycles 45 today).filter fun p => p.phase == .ovulation
    let activeTasks := tasks.filter isActiveTask
    ovulationPeriods.filterMap fun period =>
      let tasksInPhase := activeTasks.filter fun t => taskInPeriod t period
      let available : Int := OVULATION_CAPACITY - tasksInPhase.length
      if available < 2 then none
      else
        let candidates :=
          (jsSortBy pullForwardLe (activeTasks.filter (pullCandidateFilter period))).take
            available.toNat
        if candidates.isEmpty then none
        else some
          { period := period
            availableSlots := available
            candidates := candidates.map fun task =>
              { task := task
                currentDate := task.scheduledDate.getD 0
                suggestedDate :=
                  findBestDateInPeriod period.start period.stop task activeTasks cycles today
                energyMatch := if task.energyLevel == some .high then "Perfect" else "Good" } }

/-- A reschedule suggestion (reschedulingEngine.js). -/
structure RescheduleSuggestion where
  task : Task
  currentDate : Int
  currentScore : Int
  suggestedDate : Int
  suggestedScore : Int
  scoreImprovement : Int
  reason : String
deriving DecidableEq

/-- The `{ mode, suggestions, rescheduled }` result of
`checkAndReschedule`. -/
structure RescheduleResult where
  mode : String
  suggestions : List RescheduleSuggestion
  rescheduled : List Task
deriving DecidableEq

/-- `scoreCurrentDate` (reschedulingEngine.js); the unscheduled branch
returns score 0 with an empty breakdown. -/
def scoreCurrentDate (task : Task) (allTasks : List Task) (cycles : List Cycle)
    (userPreferences : UserPreferences) : ScoreResult :=
  match task.scheduledDate with
  | none => { date := 0, totalScore := 0, breakdown := ⟨0, 0, 0, 0⟩, phase := .luteal }
  | some d => scoreDate d task allTasks cycles userPreferences

/-- `buildReason` (reschedulingEngine.js). -/
def buildReason (current proposed : ScoreResult) : String :=
  let parts : List String :=
    (if 20 < jsSub proposed.breakdown.energyMatch current.breakdown.energyMatch then
      ["better energy match"] else []) ++
    (if 20 < jsSub proposed.breakdown.workloadBalance current.breakdown.workloadBalance then
      ["lighter workload"] else [])
  if parts.isEmpty then "overall better fit" else String.intercalate " + " parts

/-- The pure content of `applyRescheduling` (reschedulingEngine.js): the
returned task copies with the new dates; persistence is external. -/
def applyRescheduling (suggestions : List RescheduleSuggestion) : List Task :=
  suggestions.map fun s => { s.task with scheduledDate := some s.suggestedDate }

/-- The eligibility filter of `checkAndReschedule`: future, incomplete,
auto-scheduled tasks. -/
def rescheduleCandidates (allTasks : List Task) (today : Int) : List Task :=
  allTasks.filter fun t =>
    t.autoScheduled && !t.completed &&
      (match t.scheduledDate with
        | some d => decide (today < d)
        | none => false)

/-- The loop body of `checkAndReschedule` for one candidate task: skip when
already optimal or when the improvement is under 20 points. -/
def rescheduleSuggestionFor (allTasks : List Task) (cycles : List Cycle)
    (userPreferences : UserPreferences) (today : Int) (task : Task) :
    Option RescheduleSuggestion :=
  let currentScore := scoreCurrentDate task allTasks cycles userPreferences
  let bestDate := scheduleTask task allTasks cycles userPreferences today
  if task.scheduledDate == some bestDate then none
  else
    let proposedScore := scoreDate bestDate task allTasks cycles userPreferences
    let improvement := jsSub proposedScore.totalScore currentScore.totalScore
    if 20 ≤ improvement then
      some { task := task
             currentDate := task.scheduledDate.getD 0
             currentScore := jsRound currentScore.totalScore
             suggestedDate := bestDate
             suggestedScore := jsRound proposedScore.totalScore
             scoreImprovement := jsRound improvement
             reason := buildReason currentScore proposedScore }
    else none

/-- The suggestion list accumulated by `checkAndReschedule`. -/
def rescheduleSuggestions (allTasks : List Task) (cycles : List Cycle)
    (userPreferences : UserPreferences) (today : Int) : List RescheduleSuggestion :=
  (rescheduleCandidates allTasks today).filterMap
    (rescheduleSuggestionFor allTasks cycles userPreferences today)

/-- `checkAndReschedule` (reschedulingEngine.js), with the external
persistence of automatic mode reduced to its returned task list. -/
def checkAndReschedule (allTasks : List Task) (cycles : List Cycle)
    (userPreferences : UserPreferences) (today : Int) : RescheduleResult :=
  if cycles.isEmpty || allTasks.isEmpty then
    { mode := userPreferences.reschedulingBehavior, suggestions := [], rescheduled := [] }
  else
    let suggestions := rescheduleSuggestions allTasks cycles userPreferences today
    if suggestions.isEmpty then
      { mode := userPreferences.reschedulingBehavior, suggestions := [], rescheduled := [] }
    else if userPreferences.reschedulingBehavior == "automatic" then
      { mode := "automatic", suggestions := suggestions,
        rescheduled := applyRescheduling suggestions }
    else
      { mode := "suggestions", suggestions := suggestions, rescheduled := [] }

/-- Heap update used by the mutation model of `updateCycleLengths`: JS
`record.cycleLength = v` on the record behind reference `r`. -/
def heapSetCycleLength (heap : Nat → Cycle) (r : Nat) (v : Option Int) : Nat → Cycle :=
  fun x => if x = r then { heap x with cycleLength := v } else heap x

/-- The assignment loop of `updateCycleLengths` (cycleHelpers.js) on an
explicit heap: each cycle's length becomes the gap to the next sorted
cycle; the last becomes `null`. -/
def assignCycleLengths (heap : Nat → Cycle) : List Nat → (Nat → Cycle)
  | [] => heap
  | [r] => heapSetCycleLength heap r none
  | r :: r' :: rest =>
    assignCycleLengths
      (heapSetCycleLength heap r (some ((heap r').startDate - (heap r).startDate)))
      (r' :: rest)

/-- `updateCycleLengths` (cycleHelpers.js) over an explicit heap: the array
of references is copied and sorted ascending by start date, then the loop
mutates the referenced records in place and the sorted array is returned. -/
def updateCycleLengths (heap : Nat → Cycle) (refs : List Nat) :
    (Nat → Cycle) × List Nat :=
  if refs.length < 2 then (heap, refs)
  else
    let sorted := jsSortBy (fun a b => decide ((heap a).startDate ≤ (heap b).startDate)) refs
    (assignCycleLengths heap sorted, sorted)

/-! ### Generic lemmas about the embedding's building blocks -/

theorem mem_insertBy (le : α → α → Bool) (x a : α) (l : List α) :
    a ∈ insertBy le x l ↔ a = x ∨ a ∈ l := by
  induction l with
  | nil => simp [insertBy]
  | cons y ys ih =>
    by_cases h : le x y
    · simp [insertBy, h]
    · simp only [insertBy, h, Bool.false_eq_true, if_false, List.mem_cons, ih]
      tauto

theorem mem_jsSortBy (le : α → α → Bool) (a : α) (l : List α) :
    a ∈ jsSortBy le l ↔ a ∈ l := by
  induction l with
  | nil => simp [jsSortBy]
  | cons x xs ih => simp [jsSortBy, mem_insertBy, ih]

theorem jsSortBy_eq_nil_iff (le : α → α → Bool) (l : List α) :
    jsSortBy le l = [] ↔ l = [] := by
  constructor
  · intro h
    rcases l with _ | ⟨x, xs⟩
    · rfl
    · exfalso
      have : x ∈ jsSortBy le (x :: xs) := (mem_jsSortBy le x _).mpr (by simp)
      rw [h] at this
      simp at this
  · rintro rfl
    rfl

theorem jsSortBy_cons_of_forall_le (le : α → α → Bool) (x : α) (l : List α)
    (h : ∀ y ∈ l, le x y = true) : jsSortBy le (x :: l) = x :: jsSortBy le l := by
  show insertBy le x (jsSortBy le l) = x :: jsSortBy le l
  rcases hys : jsSortBy le l with _ | ⟨y, ys⟩
  · rfl
  · have hy : y ∈ l := by
      rw [← mem_jsSortBy le y l, hys]
      simp
    simp [insertBy, h y hy]

theorem mem_generateCandidateDatesAux (d : Int) (n : Nat) :
    ∀ current : Int, d ∈ generateCandidateDatesAux current n ↔
      current ≤ d ∧ d < current + n := by
  induction n with
  | zero =>
    intro current
    simp [generateCandidateDatesAux]
  | succ m ih =>
    intro current
    simp only [generateCandidateDatesAux, List.mem_cons, ih (current + 1)]
    omega

theorem mem_generateCandidateDates (startDate endDate d : Int) :
    d ∈ generateCandidateDates startDate endDate ↔ startDate ≤ d ∧ d ≤ endDate := by
  rw [generateCandidateDates, mem_generateCandidateDatesAux]
  omega

theorem scoreDate_date (date : Int) (task : Task) (existingTasks : List Task)
    (cycles : List Cycle) (prefs : UserPreferences) :
    (scoreDate date task existingTasks cycles prefs).date = date := rfl

theorem sortedHead_from_candidates (le : β → β → Bool) (f : α → β)
    (candidates : List α) (s : β) (rest : List β)
    (h : jsSortBy le (candidates.map f) = s :: rest) : ∃ d ∈ candidates, f d = s := by
  have hs : s ∈ jsSortBy le (candidates.map f) := by
    rw [h]
    simp
  rw [mem_jsSortBy] at hs
  exact List.mem_map.mp hs

/-! ### C1 — `scheduleTask` and explicit deadlines -/

/-- Concrete inputs used to refute C1 as stated. -/
def c1Task : Task :=
  { id := 0, energyLevel := none, deadline := some 0, preferredDays := [],
    scheduledDate := none, completed := false, autoScheduled := false }

/-- C1 counterexample: with an explicit deadline equal to today (day 0) the
last-resort branch returns tomorrow (day 1), which is not strictly before
the deadline, so the claim fails in the last-resort branch. -/
theorem c1_counterexample :
    scheduleTask c1Task [] [] emptyPrefs 0 = 1 ∧
      ¬ scheduleTask c1Task [] [] emptyPrefs 0 < 0 := by
  constructor
  · decide
  · decide

/-- C1 (amended): whenever the explicit deadline is strictly after today —
that is, whenever any date satisfying the claim exists — `scheduleTask`
returns a date not before today and strictly before the deadline, in the
normal path and in the capacity-relaxed fallback alike; when the deadline
is on or before today only the last-resort `tomorrow` remains, and it is
not before the deadline. -/
theorem c1_scheduleTask_respects_deadline (task : Task) (existingTasks : List Task)
    (cycles : List Cycle) (prefs : UserPreferences) (today deadline : Int)
    (hdl : task.deadline = some deadline) (hlt : today < deadline) :
    today ≤ scheduleTask task existingTasks cycles prefs today ∧
      scheduleTask task existingTasks cycles prefs today < deadline := by
  have base : ∀ d, d ∈ ((generateCandidateDates today deadline).filter
      (fun d => canScheduleOnDate d today)).filter (fun d => decide (d < deadline)) ↔
      today ≤ d ∧ d < deadline := by
    intro d
    simp [List.mem_filter, mem_generateCandidateDates, canScheduleOnDate, isPast]
    omega
  simp only [scheduleTask, hdl]
  split
  next s rest heq =>
    obtain ⟨d, hd, hfd⟩ := sortedHead_from_candidates _ _ _ _ _ heq
    rw [List.mem_filter] at hd
    have hd1 := (base d).mp hd.1
    have hsd : s.date = d := by
      rw [← hfd]
      exact scoreDate_date _ _ _ _ _
    rw [hsd]
    exact hd1
  next heq =>
    simp only [findBestFallbackDate, hdl]
    split
    next s2 rest2 heq2 =>
      obtain ⟨d, hd, hfd⟩ := sortedHead_from_candidates _ _ _ _ _ heq2
      have hd1 := (base d).mp hd
      have hsd : s2.date = d := by
        rw [← hfd]
        exact scoreDate_date _ _ _ _ _
      rw [hsd]
      exact hd1
    next heq2 =>
      -- impossible: today itself is a fallback candidate
      exfalso
      have hmem : today ∈ ((generateCandidateDates today deadline).filter
          (fun d => canScheduleOnDate d today)).filter (fun d => decide (d < deadline)) :=
        (base today).mpr ⟨le_refl _, hlt⟩
      have hnil := (jsSortBy_eq_nil_iff scoreDescLe _).mp heq2
      rw [List.map_eq_nil_iff] at hnil
      rw [hnil] at hmem
      simp at hmem

/-- Witness for the amended C1 at concrete inputs. -/
theorem c1_scheduleTask_respects_deadline_witness :
    c1Task.deadline = some 0 ∧ (-3 : Int) < 0 ∧
      -3 ≤ scheduleTask c1Task [] [] emptyPrefs (-3) ∧
      scheduleTask c1Task [] [] emptyPrefs (-3) < 0 := by
  have h := c1_scheduleTask_respects_deadline c1Task [] [] emptyPrefs (-3) 0 rfl (by decide)
  exact ⟨rfl, by decide, h.1, h.2⟩

/-! ### C8 — the capacity function -/

/-- C8: the capacity function is `max(1, round(b * m))` with the fixed
multipliers 0.50 / 0.75 / 1.25 / 0.75; with base 4 the capacities are
2, 3, 5, 3; and for any base ≥ 1 the result is ≥ 1. -/
theorem c8_capacity (phase : Phase) (prefs : UserPreferences) (b : Int)
    (hb : 1 ≤ b) (hpref : prefs.dailyTaskLimit = some b) :
    getCapacityForPhase phase prefs = max 1 (jsRound (jsMul b (PHASE_MULTIPLIERS phase))) ∧
    1 ≤ getCapacityForPhase phase prefs ∧
    getCapacityForPhase .menstrual ⟨some 4, none, ""⟩ = 2 ∧
    getCapacityForPhase .follicular ⟨some 4, none, ""⟩ = 3 ∧
    getCapacityForPhase .ovulation ⟨some 4, none, ""⟩ = 5 ∧
    getCapacityForPhase .luteal ⟨some 4, none, ""⟩ = 3 := by
  have hb0 : b ≠ 0 := by omega
  refine ⟨?_, getCapacityForPhase_pos phase prefs, by decide, by decide, by decide, by decide⟩
  simp [getCapacityForPhase, baseDailyLimit, hpref, hb0]

/-- Witness for C8 at concrete inputs. -/
theorem c8_capacity_witness :
    getCapacityForPhase .ovulation ⟨some 4, none, ""⟩ =
      max 1 (jsRound (jsMul (4 : Int) (PHASE_MULTIPLIERS .ovulation))) ∧
    1 ≤ getCapacityForPhase .ovulation ⟨some 4, none, ""⟩ := by
  have h := c8_capacity .ovulation ⟨some 4, none, ""⟩ 4 (by decide) rfl
  exact ⟨h.1, h.2.1⟩

/-! ### C10 — empty tasks or cycles produce no warnings or suggestions -/

/-- C10: with an empty cycle list or an empty task list, both
`detectOverloadSituations` and `suggestPullForward` return `[]`. -/
theorem c10_empty_inputs (tasks : List Task) (cycles : List Cycle)
    (prefs : UserPreferences) (today : Int) (h : tasks = [] ∨ cycles = []) :
    detectOverloadSituations tasks cycles prefs today = [] ∧
      suggestPullForward tasks cycles today = [] := by
  have hguard : (tasks.isEmpty || cycles.isEmpty) = true := by
    rcases h with rfl | rfl
    · simp
    · simp
  constructor
  · simp [detectOverloadSituations, hguard]
  · simp [suggestPullForward, hguard]

/-- Witness for C10 at concrete inputs. -/
theorem c10_empty_inputs_witness :
    detectOverloadSituations [] [⟨0, none, none, none, none⟩] emptyPrefs 0 = [] ∧
      suggestPullForward [] [⟨0, none, none, none, none⟩] 0 = [] :=
  c10_empty_inputs [] [⟨0, none, none, none, none⟩] emptyPrefs 0 (Or.inl rfl)

/-! ### C2 — logged cycles always win in `getPhaseForDateAdvanced` -/

theorem findSome?_isSome_of_exists (f : α → Option β) (l : List α)
    (h : ∃ a ∈ l, (f a).isSome) : ∃ b, l.findSome? f = some b := by
  induction l with
  | nil => simp at h
  | cons x xs ih =>
    rw [List.findSome?_cons]
    rcases hx : f x with _ | b
    · obtain ⟨a, ha, hsome⟩ := h
      rcases List.mem_cons.mp ha with rfl | ha'
      · rw [hx] at hsome
        simp at hsome
      · exact ih ⟨a, ha', hsome⟩
    · exact ⟨b, rfl⟩

theorem exists_of_findSome?_eq_some (f : α → Option β) (l : List α) (b : β)
    (h : l.findSome? f = some b) : ∃ a ∈ l, f a = some b := by
  induction l with
  | nil => simp [List.findSome?] at h
  | cons x xs ih =>
    rw [List.findSome?_cons] at h
    rcases hx : f x with _ | c
    · rw [hx] at h
      obtain ⟨a, ha, hfa⟩ := ih h
      exact ⟨a, by simp [ha], hfa⟩
    · rw [hx] at h
      cases h
      exact ⟨x, by simp, hx⟩

/-- C2: whenever some logged cycle's precomputed windows contain the date,
`getPhaseForDateAdvanced` returns the retroactive phase of a logged cycle
whose windows contain the date — the predictive and projective tiers are
not consulted. -/
theorem c2_logged_cycles_win (targetDate : Int) (cycles : List Cycle)
    (h : ∃ c ∈ cycles, (getPhaseForDate targetDate c).isSome) :
    ∃ c ∈ cycles, (getPhaseForDate targetDate c).isSome ∧
      getPhaseForDateAdvanced targetDate cycles = getPhaseForDate targetDate c := by
  have hne : cycles ≠ [] := by
    rintro rfl
    simp at h
  have hempty : cycles.isEmpty = false := by
    simpa [List.isEmpty_iff] using hne
  have hex : ∃ c ∈ jsSortBy cycleDescLe cycles, (getPhaseForDate targetDate c).isSome := by
    obtain ⟨c, hc, hsome⟩ := h
    exact ⟨c, (mem_jsSortBy _ _ _).mpr hc, hsome⟩
  simp only [getPhaseForDateAdvanced, hempty, Bool.false_eq_true, if_false]
  rcases hfind : List.findSome? (fun c => getPhaseForDate targetDate c)
      (jsSortBy cycleDescLe cycles) with _ | p
  · exfalso
    obtain ⟨p, hp⟩ := findSome?_isSome_of_exists (fun c => getPhaseForDate targetDate c) _ hex
    rw [hfind] at hp
    cases hp
  · obtain ⟨c, hc, hfc⟩ := exists_of_findSome?_eq_some _ _ _ hfind
    exact ⟨c, (mem_jsSortBy _ _ _).mp hc, by simp [hfc], by simp [hfc]⟩

/-- Concrete cycle used in several witnesses: start 2026-01-05 style
anchor with a 5-day period and 28-day length, phases precomputed. -/
def witnessCycle : Cycle :=
  { startDate := 3, endDate := none, menstrualDuration := some 5, cycleLength := some 28,
    phases := some (calculatePhasesFromStart 3 5 28) }

/-- Witness for C2 at concrete inputs. -/
theorem c2_logged_cycles_win_witness :
    ∃ c ∈ [witnessCycle], (getPhaseForDate 4 c).isSome ∧
      getPhaseForDateAdvanced 4 [witnessCycle] = getPhaseForDate 4 c :=
  c2_logged_cycles_win 4 [witnessCycle] ⟨witnessCycle, by decide⟩

/-! ### C3 — phase windows tile the cycle -/

/-- The contiguous ordered cover demanded by the claim: `M` menstrual days,
then follicular through day 13, the two ovulation days 14-15, and luteal
through day `L`. -/
def phasePattern (M L : Nat) : List (Option Phase) :=
  List.replicate M (some .menstrual) ++ (List.replicate (13 - M) (some .follicular) ++
    (List.replicate 2 (some .ovulation) ++ List.replicate (L - 15) (some .luteal)))

theorem map_range_eq_replicate (n : Nat) (g : Nat → β) (c : β)
    (h : ∀ i < n, g i = c) : (List.range n).map g = List.replicate n c := by
  apply List.eq_replicate_iff.mpr
  refine ⟨by simp, ?_⟩
  intro b hb
  obtain ⟨i, hi, rfl⟩ := List.mem_map.mp hb
  exact h i (List.mem_range.mp hi)

theorem getPhaseForDate_day (start : Int) (M L : Nat) (hM2 : M ≤ 12)
    (_hL : M + 15 ≤ L) (i : Nat) (hi : i < L) :
    getPhaseForDate (start + i)
        ⟨start, none, none, none, some (calculatePhasesFromStart start M L)⟩ =
      some (if i < M then .menstrual else if i < 13 then .follicular
        else if i < 15 then .ovulation else .luteal) := by
  show windowPhase (start + i) (calculatePhasesFromStart start M L) = _
  unfold windowPhase calculatePhasesFromStart
  simp only
  by_cases c1 : i < M
  · rw [if_pos ⟨by omega, by omega⟩]
    simp [c1]
  · rw [if_neg (by omega)]
    by_cases c2 : i < 13
    · rw [if_pos ⟨by omega, by omega⟩]
      simp [c1, c2]
    · rw [if_neg (by omega)]
      by_cases c3 : i < 15
      · rw [if_pos ⟨by omega, by omega⟩]
        simp [c1, c2, c3]
      · rw [if_neg (by omega), if_pos ⟨by omega, by omega⟩]
        simp [c1, c2, c3]

/-- C3 (amended): for `1 ≤ M ≤ 12` and `L ≥ M + 15`, reading the phase of
every day 1..L of a cycle whose windows were computed by
`calculatePhasesFromStart` yields exactly `M` menstrual days, then
follicular up to day 13, then the two ovulation days, then luteal to day
`L`: the four windows are contiguous, non-overlapping, ordered and exactly
cover the cycle, each phase appearing in one non-empty run. -/
theorem c3_phase_windows_tile (start : Int) (M L : Nat)
    (hM1 : 1 ≤ M) (hM2 : M ≤ 12) (hL : M + 15 ≤ L) :
    (List.range L).map (fun i : Nat => getPhaseForDate (start + (i : Int))
        ⟨start, none, none, none, some (calculatePhasesFromStart start M L)⟩) =
      phasePattern M L := by
  have key := getPhaseForDate_day start M L hM2 hL
  have hdec : L = M + ((13 - M) + (2 + (L - 15))) := by omega
  rw [phasePattern]
  set c : Cycle := ⟨start, none, none, none, some (calculatePhasesFromStart start M L)⟩
    with hc
  conv_lhs => rw [hdec]
  rw [List.range_add, List.map_append, List.map_map,
    List.range_add, List.map_append, List.map_map,
    List.range_add, List.map_append, List.map_map]
  congr 1
  · apply map_range_eq_replicate
    intro i hi
    rw [hc, key i (by omega)]
    simp only [if_pos hi]
  congr 1
  · apply map_range_eq_replicate
    intro i hi
    simp only [Function.comp]
    rw [hc, key (M + i) (by omega)]
    rw [if_neg (by omega), if_pos (by omega)]
  congr 1
  · apply map_range_eq_replicate
    intro i hi
    simp only [Function.comp]
    rw [hc, key (M + ((13 - M) + i)) (by omega)]
    rw [if_neg (by omega), if_neg (by omega), if_pos (by omega)]
  · apply map_range_eq_replicate
    intro i hi
    simp only [Function.comp]
    rw [hc, key (M + ((13 - M) + (2 + i))) (by omega)]
    rw [if_neg (by omega), if_neg (by omega), if_neg (by omega)]

/-- Witness for C3 at concrete inputs (M = 5, L = 28). -/
theorem c3_phase_windows_tile_witness :
    1 ≤ 5 ∧ 5 ≤ 12 ∧ 5 + 15 ≤ 28 ∧
      (List.range 28).map (fun i : Nat => getPhaseForDate ((3 : Int) + (i : Int))
          ⟨3, none, none, none, some (calculatePhasesFromStart 3 5 28)⟩) =
        phasePattern 5 28 :=
  ⟨by decide, by decide, by decide,
    c3_phase_windows_tile 3 5 28 (by decide) (by decide) (by decide)⟩

/-- The claim's bound `L ≥ M + 15` also admits M = 13, used to refute the
claim as stated. -/
def c3Cycle : Cycle :=
  ⟨0, none, none, none, some (calculatePhasesFromStart 0 13 28)⟩

/-- C3 counterexample: with M = 13 and L = 28 (which satisfy M ≥ 1 and
L ≥ M + 15), the follicular phase is visited zero times over days 1..L, so
the four windows do not each appear exactly once; the claim as stated
fails for M > 12. -/
theorem c3_counterexample :
    1 ≤ 13 ∧ 13 + 15 ≤ 28 ∧
      ((List.range 28).map (fun i : Nat => getPhaseForDate ((0 : Int) + (i : Int))
          c3Cycle)).countP (fun p => p == some Phase.follicular) = 0 := by
  refine ⟨by decide, by decide, ?_⟩
  decide

/-! ### C4 — `scheduleTask` with no deadline and no existing tasks -/

theorem jsDiv_zero (c : Rat) : jsDiv 0 c = 0 := by
  simp [jsDiv]

/-- A task with no deadline, no energy level and no preferred days. -/
def c4Task : Task :=
  { id := 0, energyLevel := none, deadline := none, preferredDays := [],
    scheduledDate := none, completed := false, autoScheduled := false }

/-- C4 counterexample: on a Saturday (day 2 is a Saturday since day 0,
1970-01-01, was a Thursday), `scheduleTask` with no existing tasks and a
task without deadline does not return today: the default weekday bias
makes the following Monday (day 4) score higher (63 against 61). -/
theorem c4_counterexample :
    scheduleTask c4Task [] [] emptyPrefs 2 ≠ 2 ∧
      scheduleTask c4Task [] [] emptyPrefs 2 = 4 := by
  constructor
  · decide
  · decide

theorem c4_score_val (task : Task) (cycles : List Cycle) (prefs : UserPreferences)
    (h1 : task.deadline = none) (h2 : task.energyLevel = none)
    (h3 : task.preferredDays = []) (h4 : prefs.schedulingWeights = none) (d : Int) :
    (scoreDate d task [] cycles prefs).totalScore = if isWeekend d then 61 else 63 := by
  simp only [scoreDate, h4, Option.getD_none, calculateEnergyMatchScore, h2,
    calculateDeadlineUrgencyScore, h1, calculateWorkloadBalanceScore, tasksOnDate,
    List.filter_nil, List.length_nil, Nat.cast_zero, jsDiv_zero,
    calculateDayPreferenceScore, h3, defaultWeights]
  simp only [if_true, lt_self_iff_false, if_false]
  cases hw : isWeekend d
  · simp only [Bool.false_eq_true, if_false]
    decide
  · simp only [if_pos trivial, if_true]
    decide

/-- C4 (amended): `scheduleTask` with an empty existing-task list, a task
that has no deadline, no energy level and no preferred days, the default
scoring weights, and a weekday today, returns today's date, for every
cycle history.  (As stated the claim is false: on a weekend today, the
default weekday preference makes a later weekday outscore today, and a
task energy level or custom weights can likewise override today.) -/
theorem c4_scheduleTask_today (task : Task) (cycles : List Cycle)
    (prefs : UserPreferences) (today : Int) (h1 : task.deadline = none)
    (h2 : task.energyLevel = none) (h3 : task.preferredDays = [])
    (h4 : prefs.schedulingWeights = none) (h5 : isWeekend today = false) :
    scheduleTask task [] cycles prefs today = today := by
  have score_val := c4_score_val task cycles prefs h1 h2 h3 h4
  have hgen : ∀ d ∈ generateCandidateDates today (today + 60), today ≤ d := by
    intro d hd
    exact ((mem_generateCandidateDates _ _ _).mp hd).1
  have hf1 : (generateCandidateDates today (today + 60)).filter
      (fun d => canScheduleOnDate d today) = generateCandidateDates today (today + 60) := by
    apply List.filter_eq_self.mpr
    intro a ha
    have := hgen a ha
    simp only [canScheduleOnDate, isPast, Bool.not_eq_true']
    simp only [decide_eq_false_iff_not]
    omega
  have hf2 : (generateCandidateDates today (today + 60)).filter
      (fun d => isDateAvailable d [] (dayPhase cycles d) prefs today) =
      generateCandidateDates today (today + 60) := by
    apply List.filter_eq_self.mpr
    intro a ha
    have h6 := hgen a ha
    have h7 := getCapacityForPhase_pos (dayPhase cycles a) prefs
    simp only [isDateAvailable, canScheduleOnDate, isPast, tasksOnDate, List.filter_nil,
      List.length_nil, Nat.cast_zero, Bool.and_eq_true, Bool.not_eq_true',
      decide_eq_false_iff_not, decide_eq_true_eq]
    exact ⟨by omega, by omega⟩
  have hshape : generateCandidateDates today (today + 60) =
      today :: generateCandidateDatesAux (today + 1) 60 := by
    rw [generateCandidateDates, show (today + 60 - today + 1).toNat = 61 from by omega]
    rfl
  simp only [scheduleTask, h1, hf1, hf2]
  rw [hshape, List.map_cons]
  rw [jsSortBy_cons_of_forall_le]
  · exact scoreDate_date _ _ _ _ _
  · intro y hy
    obtain ⟨d, hd, rfl⟩ := List.mem_map.mp hy
    simp only [scoreDescLe, score_val, h5, Bool.false_eq_true, if_false]
    cases hw : isWeekend d
    · simp only [Bool.false_eq_true, if_false]
      decide
    · simp only [if_pos trivial, if_true]
      decide

/-- Witness for the amended C4 at concrete inputs (today = 0, a Thursday). -/
theorem c4_scheduleTask_today_witness :
    c4Task.deadline = none ∧ c4Task.energyLevel = none ∧ c4Task.preferredDays = [] ∧
      emptyPrefs.schedulingWeights = none ∧ isWeekend 0 = false ∧
      scheduleTask c4Task [] [witnessCycle] emptyPrefs 0 = 0 :=
  ⟨rfl, rfl, rfl, rfl, by decide,
    c4_scheduleTask_today c4Task [witnessCycle] emptyPrefs 0 rfl rfl rfl rfl (by decide)⟩

/-! ### C6 — properties of every reschedule suggestion -/

theorem mem_rescheduleSuggestions_of_mem_checkAndReschedule (allTasks : List Task)
    (cycles : List Cycle) (prefs : UserPreferences) (today : Int)
    (s : RescheduleSuggestion)
    (hs : s ∈ (checkAndReschedule allTasks cycles prefs today).suggestions) :
    s ∈ rescheduleSuggestions allTasks cycles prefs today := by
  simp only [checkAndReschedule] at hs
  split at hs
  · simp at hs
  · split at hs
    · simp at hs
    · split at hs
      · simpa using hs
      · simpa using hs

/-- C6: every suggestion emitted by `checkAndReschedule` concerns an
auto-scheduled, incomplete task scheduled strictly after today, proposes a
date different from the current one, and improves the total score by at
least 20 points. -/
theorem c6_suggestion_properties (allTasks : List Task) (cycles : List Cycle)
    (prefs : UserPreferences) (today : Int) (s : RescheduleSuggestion)
    (hs : s ∈ (checkAndReschedule allTasks cycles prefs today).suggestions) :
    s.task.autoScheduled = true ∧ s.task.completed = false ∧
    s.task.scheduledDate = some s.currentDate ∧ today < s.currentDate ∧
    s.suggestedDate ≠ s.currentDate ∧
    20 ≤ (scoreDate s.suggestedDate s.task allTasks cycles prefs).totalScore -
      (scoreDate s.currentDate s.task allTasks cycles prefs).totalScore := by
  have hs' := mem_rescheduleSuggestions_of_mem_checkAndReschedule _ _ _ _ _ hs
  rw [rescheduleSuggestions] at hs'
  obtain ⟨task, htask, hsome⟩ := List.mem_filterMap.mp hs'
  rw [rescheduleCandidates, List.mem_filter] at htask
  obtain ⟨-, hcond⟩ := htask
  simp only [Bool.and_eq_true, Bool.not_eq_true'] at hcond
  obtain ⟨⟨hauto, hncomp⟩, hfut⟩ := hcond
  rcases hd : task.scheduledDate with _ | d
  · rw [hd] at hfut
    simp at hfut
  · rw [hd] at hfut
    have hdtoday : today < d := by
      simpa using hfut
    simp only [rescheduleSuggestionFor] at hsome
    split at hsome
    · cases hsome
    · next hne =>
      split at hsome
      · next himp =>
        obtain rfl := Option.some.inj hsome
        have hcur : scoreCurrentDate task allTasks cycles prefs =
            scoreDate d task allTasks cycles prefs := by
          rw [scoreCurrentDate, hd]
        rw [hcur, jsSub_eq] at himp
        refine ⟨hauto, hncomp, ?_, ?_, ?_, ?_⟩
        · simp [hd]
        · simpa [hd] using hdtoday
        · simp only [hd, beq_iff_eq] at hne
          simp only [hd, Option.getD_some]
          intro hcontra
          exact hne (by rw [hcontra])
        · simpa [hd] using himp
      · cases hsome

/-- Concrete cycle used in the C6 and C7 witnesses: ovulation window on
days 3-4, luteal days 5-17. -/
def wCycle6 : Cycle :=
  { startDate := -10, endDate := none, menstrualDuration := some 5, cycleLength := some 28,
    phases := some (calculatePhasesFromStart (-10) 5 28) }

/-- Concrete task for the C6 witness: high-energy, auto-scheduled on a
luteal day 5 with deadline day 6; its best date is the ovulation day 4. -/
def wTask6 : Task :=
  { id := 7, energyLevel := some .high, deadline := some 6, preferredDays := [],
    scheduledDate := some 5, completed := false, autoScheduled := true }

/-- The suggestion `checkAndReschedule` emits in the C6 witness scenario. -/
def wSuggestion6 : RescheduleSuggestion :=
  { task := wTask6, currentDate := 5, currentScore := 61, suggestedDate := 4,
    suggestedScore := 95, scoreImprovement := 35, reason := "better energy match" }

/-- Witness for C6 at concrete inputs. -/
theorem c6_suggestion_properties_witness :
    wSuggestion6.task.autoScheduled = true ∧ wSuggestion6.task.completed = false ∧
    wSuggestion6.task.scheduledDate = some wSuggestion6.currentDate ∧
    (0 : Int) < wSuggestion6.currentDate ∧
    wSuggestion6.suggestedDate ≠ wSuggestion6.currentDate ∧
    20 ≤ (scoreDate wSuggestion6.suggestedDate wSuggestion6.task [wTask6] [wCycle6]
        emptyPrefs).totalScore -
      (scoreDate wSuggestion6.currentDate wSuggestion6.task [wTask6] [wCycle6]
        emptyPrefs).totalScore :=
  c6_suggestion_properties [wTask6] [wCycle6] emptyPrefs 0 wSuggestion6 (by decide)

/-! ### C7 — properties of every pull-forward suggestion group -/

/-- C7: `suggestPullForward` never proposes a task with a deadline or a
completed task, never proposes more candidates than the available
ovulation slots, and the available slots are the fixed ovulation capacity
5 minus the number of active tasks already scheduled in the window. -/
theorem c7_pull_forward_properties (tasks : List Task) (cycles : List Cycle)
    (today : Int) (g : PullGroup) (hg : g ∈ suggestPullForward tasks cycles today) :
    (∀ c ∈ g.candidates, c.task.deadline = none ∧ c.task.completed = false) ∧
    (g.candidates.length : Int) ≤ g.availableSlots ∧
    OVULATION_CAPACITY = 5 ∧
    g.availableSlots = OVULATION_CAPACITY -
      (((tasks.filter isActiveTask).filter (fun t => taskInPeriod t g.period)).length : Int) := by
  simp only [suggestPullForward] at hg
  split at hg
  · simp at hg
  · obtain ⟨period, hperiod, hsome⟩ := List.mem_filterMap.mp hg
    split at hsome
    · cases hsome
    · next hav =>
      split at hsome
      · cases hsome
      · next hcne =>
        obtain rfl := Option.some.inj hsome
        refine ⟨?_, ?_, rfl, rfl⟩
        · intro c hc
          obtain ⟨task, htask, rfl⟩ := List.mem_map.mp hc
          have h1 := List.mem_of_mem_take htask
          rw [mem_jsSortBy, List.mem_filter] at h1
          obtain ⟨hact, hfil⟩ := h1
          rw [List.mem_filter] at hact
          simp only [pullCandidateFilter, Bool.and_eq_true] at hfil
          simp only [isActiveTask, Bool.and_eq_true, Bool.not_eq_true'] at hact
          exact ⟨Option.isNone_iff_eq_none.mp hfil.1.1.2, hact.2.1⟩
        · rw [List.length_map, List.length_take]
          simp only [OVULATION_CAPACITY] at hav ⊢
          omega

/-- Concrete task for the C7 witness: eligible for pull-forward. -/
def wTask7 : Task :=
  { id := 9, energyLevel := some .high, deadline := none, preferredDays := [],
    scheduledDate := some 30, completed := false, autoScheduled := true }

/-- The candidate entry `suggestPullForward` computes for `wTask7`. -/
def wCand7 : PullCandidate :=
  { task := wTask7, currentDate := 30, suggestedDate := 4, energyMatch := "Perfect" }

/-- The group `suggestPullForward` emits in the C7 witness scenario. -/
def wGroup7 : PullGroup :=
  { period := { phase := .ovulation, start := 3, stop := 4 }, availableSlots := 5,
    candidates := [wCand7] }

/-- Witness for C7 at concrete inputs. -/
theorem c7_pull_forward_properties_witness :
    (∀ c ∈ wGroup7.candidates, c.task.deadline = none ∧ c.task.completed = false) ∧
    (wGroup7.candidates.length : Int) ≤ wGroup7.availableSlots ∧
    OVULATION_CAPACITY = 5 ∧
    wGroup7.availableSlots = OVULATION_CAPACITY -
      ((([wTask7].filter isActiveTask).filter
        (fun t => taskInPeriod t wGroup7.period)).length : Int) :=
  c7_pull_forward_properties [wTask7] [wCycle6] 0 wGroup7 (by decide)

/-! ### C9 — `updateCycleLengths` mutates its input records -/

theorem heapSetCycleLength_frame (heap : Nat → Cycle) (x : Nat) (v : Option Int) (r : Nat) :
    (heapSetCycleLength heap x v r).startDate = (heap r).startDate ∧
    (heapSetCycleLength heap x v r).endDate = (heap r).endDate ∧
    (heapSetCycleLength heap x v r).menstrualDuration = (heap r).menstrualDuration ∧
    (heapSetCycleLength heap x v r).phases = (heap r).phases := by
  by_cases h : r = x <;> simp [heapSetCycleLength, h]

theorem heapSetCycleLength_ne (heap : Nat → Cycle) (x : Nat) (v : Option Int) (r : Nat)
    (h : r ≠ x) : heapSetCycleLength heap x v r = heap r := by
  simp [heapSetCycleLength, h]

theorem assignCycleLengths_frame (l : List Nat) : ∀ (heap : Nat → Cycle) (r : Nat),
    (r ∉ l → assignCycleLengths heap l r = heap r) ∧
    ((assignCycleLengths heap l r).startDate = (heap r).startDate ∧
      (assignCycleLengths heap l r).endDate = (heap r).endDate ∧
      (assignCycleLengths heap l r).menstrualDuration = (heap r).menstrualDuration ∧
      (assignCycleLengths heap l r).phases = (heap r).phases) := by
  induction l with
  | nil =>
    intro heap r
    simp [assignCycleLengths]
  | cons x t ih =>
    cases t with
    | nil =>
      intro heap r
      constructor
      · intro hr
        have hrx : r ≠ x := by
          intro h
          exact hr (h ▸ List.mem_cons_self x [])
        exact heapSetCycleLength_ne heap x none r hrx
      · exact heapSetCycleLength_frame heap x none r
    | cons y t2 =>
      intro heap r
      have hstep : assignCycleLengths heap (x :: y :: t2) =
          assignCycleLengths
            (heapSetCycleLength heap x (some ((heap y).startDate - (heap x).startDate)))
            (y :: t2) := rfl
      constructor
      · intro hr
        have hr1 : r ∉ y :: t2 := fun h => hr (List.mem_cons_of_mem _ h)
        have hrx : r ≠ x := by
          intro h
          exact hr (h ▸ List.mem_cons_self x (y :: t2))
        rw [hstep, (ih _ r).1 hr1]
        exact heapSetCycleLength_ne heap x _ r hrx
      · have h2 := (ih (heapSetCycleLength heap x
          (some ((heap y).startDate - (heap x).startDate))) r).2
        have h3 := heapSetCycleLength_frame heap x
          (some ((heap y).startDate - (heap x).startDate)) r
        rw [hstep]
        exact ⟨h2.1.trans h3.1, h2.2.1.trans h3.2.1, h2.2.2.1.trans h3.2.2.1,
          h2.2.2.2.trans h3.2.2.2⟩

/-- C9 (amended): `updateCycleLengths` may mutate only the `cycleLength`
field of the cycle records passed to it — records not referenced by the
argument array are untouched, and every other field of every record
(`startDate`, `endDate`, `menstrualDuration`, `phases`) is preserved; the
other engine functions are pure and leave their inputs unchanged. -/
theorem c9_updateCycleLengths_frame (heap : Nat → Cycle) (refs : List Nat) :
    (∀ r, r ∉ refs → (updateCycleLengths heap refs).1 r = heap r) ∧
    (∀ r, ((updateCycleLengths heap refs).1 r).startDate = (heap r).startDate ∧
      ((updateCycleLengths heap refs).1 r).endDate = (heap r).endDate ∧
      ((updateCycleLengths heap refs).1 r).menstrualDuration = (heap r).menstrualDuration ∧
      ((updateCycleLengths heap refs).1 r).phases = (heap r).phases) := by
  rw [updateCycleLengths]
  split
  · simp
  · refine ⟨?_, ?_⟩
    · intro r hr
      have hr' : r ∉ jsSortBy (fun a b => decide ((heap a).startDate ≤ (heap b).startDate))
          refs := by
        rw [mem_jsSortBy]
        exact hr
      exact (assignCycleLengths_frame _ heap r).1 hr'
    · intro r
      exact (assignCycleLengths_frame _ heap r).2

/-- Cycle records behind the two references of the C9 counterexample. -/
def c9Heap : Nat → Cycle :=
  fun r => if r = 0 then ⟨100, none, none, none, none⟩ else ⟨128, none, none, none, none⟩

/-- C9 counterexample: `updateCycleLengths` writes the 28-day gap into the
`cycleLength` field of the first input record, so the record passed in is
changed — the claim that no listed function mutates its inputs is false. -/
theorem c9_counterexample :
    (updateCycleLengths c9Heap [0, 1]).1 0 ≠ c9Heap 0 ∧
      ((updateCycleLengths c9Heap [0, 1]).1 0).cycleLength = some 28 ∧
      (c9Heap 0).cycleLength = none := by
  refine ⟨by decide, by decide, by decide⟩

/-- Witness for the amended C9 at concrete inputs. -/
theorem c9_updateCycleLengths_frame_witness :
    (updateCycleLengths c9Heap [0, 1]).1 5 = c9Heap 5 ∧
      ((updateCycleLengths c9Heap [0, 1]).1 0).startDate = (c9Heap 0).startDate :=
  ⟨(c9_updateCycleLengths_frame c9Heap [0, 1]).1 5 (by decide),
    ((c9_updateCycleLengths_frame c9Heap [0, 1]).2 0).1⟩

/-! ### C5 — segmentation facts about `getUpcomingPhasePeriods` -/

/-- A list of phase periods tiles the days from `lo` on: each period starts
where the previous stopped + 1, is non-empty, carries the common phase of
all its days, and differs in phase from its successor (maximality). -/
def ChainOK (p : Int → Phase) : Int → List PhasePeriod → Prop
  | _, [] => True
  | lo, [P] => P.start = lo ∧ lo ≤ P.stop ∧ ∀ d, lo ≤ d → d ≤ P.stop → p d = P.phase
  | lo, P :: Q :: rest =>
      P.start = lo ∧ lo ≤ P.stop ∧ (∀ d, lo ≤ d → d ≤ P.stop → p d = P.phase) ∧
      Q.phase ≠ P.phase ∧ ChainOK p (P.stop + 1) (Q :: rest)

theorem ChainOK_head (p : Int → Phase) (lo : Int) (P : PhasePeriod)
    (rest : List PhasePeriod) (h : ChainOK p lo (P :: rest)) :
    P.start = lo ∧ lo ≤ P.stop ∧ ∀ d, lo ≤ d → d ≤ P.stop → p d = P.phase := by
  cases rest with
  | nil => exact h
  | cons Q rest2 => exact ⟨h.1, h.2.1, h.2.2.1⟩

theorem ChainOK_tail (p : Int → Phase) (lo : Int) (P Q : PhasePeriod)
    (rest : List PhasePeriod) (h : ChainOK p lo (P :: Q :: rest)) :
    Q.phase ≠ P.phase ∧ ChainOK p (P.stop + 1) (Q :: rest) :=
  ⟨h.2.2.2.1, h.2.2.2.2⟩

/-- The last day covered by a chain starting at `lo` (`lo - 1` if empty). -/
def chainStop (lo : Int) : List PhasePeriod → Int
  | [] => lo - 1
  | [P] => P.stop
  | _ :: Q :: rest => chainStop lo (Q :: rest)

theorem chainStop_indep (lo lo' : Int) :
    ∀ l : List PhasePeriod, l ≠ [] → chainStop lo l = chainStop lo' l
  | [], h => absurd rfl h
  | [_], _ => rfl
  | _ :: Q :: rest, _ => chainStop_indep lo lo' (Q :: rest) (by simp)

theorem chainStop_concat (lo : Int) (l : List PhasePeriod) (P : PhasePeriod) :
    chainStop lo (l ++ [P]) = P.stop := by
  induction l with
  | nil => rfl
  | cons x xs ih =>
    rcases hxs : xs ++ [P] with _ | ⟨Q, rest⟩
    · exact absurd hxs (by simp)
    · show chainStop lo (x :: (xs ++ [P])) = P.stop
      rw [hxs]
      show chainStop lo (Q :: rest) = P.stop
      rw [← hxs]
      exact ih

theorem ChainOK_start_lb (p : Int → Phase) (l : List PhasePeriod) :
    ∀ lo : Int, ChainOK p lo l → ∀ P ∈ l, lo ≤ P.start := by
  induction l with
  | nil =>
    intro lo _ P hP
    simp at hP
  | cons Q rest ih =>
    intro lo h P hP
    obtain ⟨h1, h2, _⟩ := ChainOK_head p lo Q rest h
    rcases List.mem_cons.mp hP with rfl | hP'
    · omega
    · cases rest with
      | nil => simp at hP'
      | cons R rest2 =>
        have := ih (Q.stop + 1) (ChainOK_tail p lo Q R rest2 h).2 P hP'
        omega

theorem ChainOK_extend_last (p : Int → Phase) (l : List PhasePeriod) (P : PhasePeriod) :
    ∀ lo : Int, ChainOK p lo (l ++ [P]) → p (P.stop + 1) = P.phase →
      ChainOK p lo (l ++ [⟨P.phase, P.start, P.stop + 1⟩]) := by
  induction l with
  | nil =>
    intro lo h hp
    obtain ⟨h1, h2, h3⟩ := h
    refine ⟨h1, by dsimp only; omega, ?_⟩
    intro d hd1 hd2
    dsimp only at hd2 ⊢
    rcases eq_or_lt_of_le hd2 with heq | hlt
    · rw [heq]
      exact hp
    · exact h3 d hd1 (by omega)
  | cons Q l ih =>
    intro lo h hp
    cases l with
    | nil =>
      obtain ⟨h1, h2, h3, h4, h5⟩ := h
      exact ⟨h1, h2, h3, h4, ih _ h5 hp⟩
    | cons S l2 =>
      obtain ⟨h1, h2, h3, h4, h5⟩ := h
      exact ⟨h1, h2, h3, h4, ih _ h5 hp⟩

theorem ChainOK_append_new (p : Int → Phase) (l : List PhasePeriod) (P N : PhasePeriod) :
    ∀ lo : Int, ChainOK p lo (l ++ [P]) → N.start = P.stop + 1 → N.stop = N.start →
      p N.start = N.phase → N.phase ≠ P.phase →
      ChainOK p lo ((l ++ [P]) ++ [N]) := by
  induction l with
  | nil =>
    intro lo h hNs hNe hNp hNne
    obtain ⟨h1, h2, h3⟩ := h
    refine ⟨h1, h2, h3, hNne, ?_⟩
    refine ⟨by omega, by omega, ?_⟩
    intro d hd1 hd2
    have hd : d = N.start := by omega
    rw [hd]
    exact hNp
  | cons Q l ih =>
    intro lo h hNs hNe hNp hNne
    cases l with
    | nil =>
      obtain ⟨h1, h2, h3, h4, h5⟩ := h
      exact ⟨h1, h2, h3, h4, ih _ h5 hNs hNe hNp hNne⟩
    | cons S l2 =>
      obtain ⟨h1, h2, h3, h4, h5⟩ := h
      exact ⟨h1, h2, h3, h4, ih _ h5 hNs hNe hNp hNne⟩

theorem ChainOK_window (p : Int → Phase) (φ : Phase) (s e : Int) (hse : s ≤ e)
    (l : List PhasePeriod) :
    ∀ lo : Int, ChainOK p lo l → lo ≤ s → e ≤ chainStop lo l →
      (∀ d, s ≤ d → d ≤ e → p d = φ) →
      ∃ l1 P l2, l = l1 ++ P :: l2 ∧ P.start ≤ s ∧ e ≤ P.stop ∧ P.phase = φ ∧
        (∀ Q ∈ l1, Q.stop < s) ∧ (∀ Q ∈ l2, e < Q.start) := by
  induction l with
  | nil =>
    intro lo _ hlo hend _
    exfalso
    rw [show chainStop lo [] = lo - 1 from rfl] at hend
    omega
  | cons P rest ih =>
    intro lo h hlo hend hφ
    obtain ⟨h1, h2, h3⟩ := ChainOK_head p lo P rest h
    cases rest with
    | nil =>
      rw [show chainStop lo [P] = P.stop from rfl] at hend
      have hPphase : P.phase = φ := by
        have hps := h3 s (by omega) (by omega)
        rw [← hps]
        exact hφ s le_rfl (by omega)
      exact ⟨[], P, [], rfl, by omega, by omega, hPphase, by simp, by simp⟩
    | cons R rest2 =>
      obtain ⟨hRne, hRchain⟩ := ChainOK_tail p lo P R rest2 h
      by_cases hcase : s ≤ P.stop
      · have hPphase : P.phase = φ := by
          have hps := h3 s (by omega) hcase
          rw [← hps]
          exact hφ s le_rfl (by omega)
        have hstopge : e ≤ P.stop := by
          by_contra hco
          push_neg at hco
          obtain ⟨hR1, hR2, hR3⟩ := ChainOK_head p (P.stop + 1) R rest2 hRchain
          have hpR : p (P.stop + 1) = R.phase := hR3 (P.stop + 1) (by omega) (by omega)
          have hpφ : p (P.stop + 1) = φ := hφ _ (by omega) (by omega)
          exact hRne (by rw [← hpR, hpφ, hPphase])
        refine ⟨[], P, R :: rest2, rfl, by omega, hstopge, hPphase, by simp, ?_⟩
        intro Q hQ
        have := ChainOK_start_lb p (R :: rest2) (P.stop + 1) hRchain Q hQ
        omega
      · push_neg at hcase
        have hend' : e ≤ chainStop (P.stop + 1) (R :: rest2) := by
          rw [show chainStop lo (P :: R :: rest2) = chainStop lo (R :: rest2) from rfl]
            at hend
          rw [chainStop_indep lo (P.stop + 1) (R :: rest2) (by simp)] at hend
          exact hend
        obtain ⟨l1, P0, l2, heq, hs1, hs2, hs3, hs4, hs5⟩ :=
          ih (P.stop + 1) hRchain (by omega) hend' hφ
        refine ⟨P :: l1, P0, l2, ?_, hs1, hs2, hs3, ?_, hs5⟩
        · rw [List.cons_append, heq]
        · intro Q hQ
          rcases List.mem_cons.mp hQ with rfl | hQ'
          · omega
          · exact hs4 Q hQ'

theorem segInvariant (cycles : List Cycle) (today : Int) (n : Nat) :
    ∃ ps cur, (List.range (n + 1)).foldl (phasePeriodStep cycles today) ([], none) =
        (ps, some cur) ∧
      ChainOK (dayPhase cycles) today (ps ++ [cur]) ∧ cur.stop = today + (n : Int) := by
  induction n with
  | zero =>
    refine ⟨[], ⟨dayPhase cycles (today + ((0 : Nat) : Int)), today + ((0 : Nat) : Int),
      today + ((0 : Nat) : Int)⟩, rfl, ?_, rfl⟩
    refine ⟨by dsimp only; omega, by dsimp only; omega, ?_⟩
    intro d hd1 hd2
    dsimp only at hd1 hd2 ⊢
    have hd : d = today + ((0 : Nat) : Int) := by omega
    rw [hd]
  | succ m ih =>
    obtain ⟨ps, cur, hfold, hchain, hstop⟩ := ih
    rw [List.range_succ, List.foldl_append, hfold, List.foldl_cons, List.foldl_nil]
    by_cases hph : cur.phase = dayPhase cycles (today + (((m + 1 : Nat)) : Int))
    · refine ⟨ps, ⟨cur.phase, cur.start, today + (((m + 1 : Nat)) : Int)⟩, ?_, ?_, ?_⟩
      · simp only [phasePeriodStep]
        rw [if_pos hph]
      · have hcur : (⟨cur.phase, cur.start, today + (((m + 1 : Nat)) : Int)⟩ :
            PhasePeriod) = ⟨cur.phase, cur.start, cur.stop + 1⟩ := by
          simp only [PhasePeriod.mk.injEq, true_and, and_true]
          rw [hstop]
          push_cast
          ring
        rw [hcur]
        apply ChainOK_extend_last _ _ _ _ hchain
        have hss : cur.stop + 1 = today + (((m + 1 : Nat)) : Int) := by
          rw [hstop]
          push_cast
          ring
        rw [hss]
        exact hph.symm
      · rfl
    · refine ⟨ps ++ [cur], ⟨dayPhase cycles (today + (((m + 1 : Nat)) : Int)),
        today + (((m + 1 : Nat)) : Int), today + (((m + 1 : Nat)) : Int)⟩, ?_, ?_, ?_⟩
      · simp only [phasePeriodStep]
        rw [if_neg hph]
      · apply ChainOK_append_new _ _ _ _ _ hchain ?_ rfl rfl ?_
        · dsimp only
          rw [hstop]
          push_cast
          ring
        · dsimp only
          intro hco
          exact hph hco.symm
      · rfl

theorem getUpcomingPhasePeriods_chain (cycles : List Cycle) (today : Int) (m : Nat) :
    ChainOK (dayPhase cycles) today (getUpcomingPhasePeriods cycles (m + 1) today) ∧
      chainStop today (getUpcomingPhasePeriods cycles (m + 1) today) =
        today + (m : Int) := by
  obtain ⟨ps, cur, hfold, hchain, hstop⟩ := segInvariant cycles today m
  rw [getUpcomingPhasePeriods, hfold]
  exact ⟨hchain, by rw [chainStop_concat]; exact hstop⟩

theorem warningsForPeriod_no_tasks (prefs : UserPreferences) (activeTasks : List Task)
    (Q : PhasePeriod) (h : activeTasks.filter (fun t => taskInPeriod t Q) = []) :
    (warningsForPeriod prefs activeTasks Q).countP Warning.isOverload = 0 ∧
      (warningsForPeriod prefs activeTasks Q).countP Warning.isEnergyMismatch = 0 := by
  simp only [warningsForPeriod, h, List.length_nil]
  rw [if_neg (by omega)]
  split_ifs <;>
    simp [Warning.isOverload, Warning.isEnergyMismatch]

theorem warningsForPeriod_full (prefs : UserPreferences) (tasks4 : List Task)
    (P : PhasePeriod) (hphase : P.phase = .menstrual)
    (hfilter : tasks4.filter (fun t => taskInPeriod t P) = tasks4)
    (hlen : tasks4.length = 4)
    (hhigh : tasks4.filter (fun t => t.energyLevel == some .high) = tasks4) :
    (warningsForPeriod prefs tasks4 P).countP Warning.isOverload = 1 ∧
      (∀ w ∈ warningsForPeriod prefs tasks4 P,
        w.isOverload = true → w.severity = Severity.high) ∧
      (warningsForPeriod prefs tasks4 P).countP Warning.isEnergyMismatch = 4 := by
  simp only [warningsForPeriod, hfilter, hphase, hhigh, hlen]
  rw [if_pos ⟨by simp, by omega⟩, if_pos (by omega), if_pos (Or.inl (by simp)),
    if_neg (by simp), List.append_nil]
  refine ⟨?_, ?_, ?_⟩
  · simp only [List.countP_append, List.countP_map]
    rw [List.countP_cons_of_pos _ _ (by rfl), List.countP_nil]
    have hz : List.countP (Warning.isOverload ∘
        fun t => Warning.energyMismatch Severity.medium Phase.menstrual t) tasks4 = 0 := by
      rw [List.countP_eq_zero]
      intro t _
      simp [Warning.isOverload, Function.comp]
    omega
  · intro w hw
    rcases List.mem_append.mp hw with hw1 | hw2
    · rcases List.mem_cons.mp hw1 with rfl | hw1'
      · intro _
        rfl
      · simp at hw1'
    · obtain ⟨t, _, rfl⟩ := List.mem_map.mp hw2
      intro hco
      simp [Warning.isOverload] at hco
  · simp only [List.countP_append, List.countP_map]
    rw [List.countP_cons_of_neg _ _ (by simp [Warning.isEnergyMismatch]), List.countP_nil]
    have hfour : List.countP (Warning.isEnergyMismatch ∘
        fun t => Warning.energyMismatch Severity.medium Phase.menstrual t) tasks4 =
        tasks4.length := by
      rw [List.countP_eq_length]
      intro t _
      simp [Warning.isEnergyMismatch, Function.comp]
    omega

theorem countP_flatten_map_zero (p : Warning → Bool) (f : PhasePeriod → List Warning)
    (L : List PhasePeriod) (h : ∀ Q ∈ L, (f Q).countP p = 0) :
    ((L.map f).flatten).countP p = 0 := by
  induction L with
  | nil => simp
  | cons Q L ih =>
    simp only [List.map_cons, List.flatten_cons, List.countP_append]
    rw [h Q (by simp), ih (fun R hR => h R (by simp [hR]))]

/-- The shape of each task in the C5 scenario: incomplete, high-energy,
scheduled inside the 5-day window starting at `s`. -/
def c5TaskOK (s : Int) (t : Task) : Prop :=
  t.completed = false ∧ t.energyLevel = some .high ∧
    ∃ d, t.scheduledDate = some d ∧ s ≤ d ∧ d ≤ s + 4

/-- C5: with exactly four incomplete high-energy tasks, all scheduled in a
single 5-day logged menstrual window `[s, s+4]` lying in the next 30 days
(every day of the window resolving to the menstrual phase),
`detectOverloadSituations` emits exactly one overload warning, that warning
has severity high, and exactly four energy-mismatch warnings. -/
theorem c5_overload_and_mismatch_warnings (cycles : List Cycle)
    (prefs : UserPreferences) (today s : Int) (t1 t2 t3 t4 : Task)
    (hlog : ∃ c ∈ cycles, ∃ cp, c.phases = some cp ∧
      cp.menstrual = { start := s, stop := s + 4 })
    (hwin : ∀ i : Nat, i < 5 → dayPhase cycles (s + (i : Int)) = .menstrual)
    (hlo : today ≤ s) (hhi : s + 4 ≤ today + 29)
    (h1 : c5TaskOK s t1) (h2 : c5TaskOK s t2) (h3 : c5TaskOK s t3)
    (h4 : c5TaskOK s t4) :
    (detectOverloadSituations [t1, t2, t3, t4] cycles prefs today).countP
        Warning.isOverload = 1 ∧
      (∀ w ∈ detectOverloadSituations [t1, t2, t3, t4] cycles prefs today,
        w.isOverload = true → w.severity = Severity.high) ∧
      (detectOverloadSituations [t1, t2, t3, t4] cycles prefs today).countP
        Warning.isEnergyMismatch = 4 := by
  have hcyc : cycles ≠ [] := by
    rcases hlog with ⟨c, hc, -⟩
    intro h
    rw [h] at hc
    simp at hc
  have hall : ∀ t ∈ [t1, t2, t3, t4], c5TaskOK s t := by
    intro t ht
    simp only [List.mem_cons, List.not_mem_nil, or_false] at ht
    rcases ht with rfl | rfl | rfl | rfl <;> assumption
  have hwin' : ∀ d : Int, s ≤ d → d ≤ s + 4 → dayPhase cycles d = .menstrual := by
    intro d hd1 hd2
    have h0 : d = s + (((d - s).toNat : Nat) : Int) := by omega
    rw [h0]
    exact hwin (d - s).toNat (by omega)
  have hguard : (([t1, t2, t3, t4] : List Task).isEmpty || cycles.isEmpty) = false := by
    rcases cycles with _ | ⟨c, cs⟩
    · exact absurd rfl hcyc
    · rfl
  have hactive : ([t1, t2, t3, t4] : List Task).filter isActiveTask = [t1, t2, t3, t4] := by
    apply List.filter_eq_self.mpr
    intro t ht
    obtain ⟨hc, he, d, hd, -, -⟩ := hall t ht
    simp [isActiveTask, hc, hd]
  obtain ⟨hchain, hstop⟩ := getUpcomingPhasePeriods_chain cycles today 29
  rw [show (29 + 1 : Nat) = 30 from rfl] at hchain hstop
  obtain ⟨l1, P, l2, hdec, hPs, hPe, hPφ, hl1, hl2⟩ :=
    ChainOK_window (dayPhase cycles) .menstrual s (s + 4) (by omega) _ today hchain hlo
      (by rw [hstop]; omega) hwin'
  have htasksP : ([t1, t2, t3, t4] : List Task).filter (fun t => taskInPeriod t P) =
      [t1, t2, t3, t4] := by
    apply List.filter_eq_self.mpr
    intro t ht
    obtain ⟨-, -, d, hd, hds, hde⟩ := hall t ht
    simp only [taskInPeriod, hd, Bool.and_eq_true, decide_eq_true_eq]
    omega
  have hhighP : ([t1, t2, t3, t4] : List Task).filter
      (fun t => t.energyLevel == some .high) = [t1, t2, t3, t4] := by
    apply List.filter_eq_self.mpr
    intro t ht
    obtain ⟨-, he, -⟩ := hall t ht
    simp [he]
  have hempty : ∀ Q : PhasePeriod, Q.stop < s ∨ s + 4 < Q.start →
      ([t1, t2, t3, t4] : List Task).filter (fun t => taskInPeriod t Q) = [] := by
    intro Q hQ
    rw [List.filter_eq_nil_iff]
    intro t ht
    obtain ⟨-, -, d, hd, hds, hde⟩ := hall t ht
    simp only [taskInPeriod, hd, Bool.and_eq_true, decide_eq_true_eq, not_and]
    omega
  obtain ⟨ho1, hos, hom⟩ := warningsForPeriod_full prefs [t1, t2, t3, t4] P hPφ htasksP
    rfl hhighP
  simp only [detectOverloadSituations, hguard, Bool.false_eq_true, if_false, hactive,
    hdec, List.map_append, List.map_cons, List.flatten_append, List.flatten_cons]
  have hz1 : ((l1.map (warningsForPeriod prefs [t1, t2, t3, t4])).flatten).countP
      Warning.isOverload = 0 :=
    countP_flatten_map_zero _ _ _ fun Q hQ =>
      (warningsForPeriod_no_tasks prefs _ Q (hempty Q (Or.inl (hl1 Q hQ)))).1
  have hz1' : ((l1.map (warningsForPeriod prefs [t1, t2, t3, t4])).flatten).countP
      Warning.isEnergyMismatch = 0 :=
    countP_flatten_map_zero _ _ _ fun Q hQ =>
      (warningsForPeriod_no_tasks prefs _ Q (hempty Q (Or.inl (hl1 Q hQ)))).2
  have hz2 : ((l2.map (warningsForPeriod prefs [t1, t2, t3, t4])).flatten).countP
      Warning.isOverload = 0 :=
    countP_flatten_map_zero _ _ _ fun Q hQ =>
      (warningsForPeriod_no_tasks prefs _ Q (hempty Q (Or.inr (hl2 Q hQ)))).1
  have hz2' : ((l2.map (warningsForPeriod prefs [t1, t2, t3, t4])).flatten).countP
      Warning.isEnergyMismatch = 0 :=
    countP_flatten_map_zero _ _ _ fun Q hQ =>
      (warningsForPeriod_no_tasks prefs _ Q (hempty Q (Or.inr (hl2 Q hQ)))).2
  refine ⟨?_, ?_, ?_⟩
  · rw [List.countP_append, List.countP_append, hz1, hz2, ho1]
  · intro w hw
    rcases List.mem_append.mp hw with hwl | hwr
    · intro hov
      exact absurd hov (List.countP_eq_zero.mp hz1 w hwl)
    · rcases List.mem_append.mp hwr with hwp | hwl2
      · exact hos w hwp
      · intro hov
        exfalso
        have := List.countP_eq_zero.mp hz2 w hwl2
        exact this hov
  · rw [List.countP_append, List.countP_append, hz1', hz2', hom]

/-- Four incomplete high-energy tasks scheduled on days 3, 4, 5, 6 — inside
the menstrual window [3, 7] of `witnessCycle`. -/
def c5Task1 : Task :=
  { id := 1, energyLevel := some .high, deadline := none, preferredDays := [],
    scheduledDate := some 3, completed := false, autoScheduled := false }

/-- Second task of the C5 witness scenario. -/
def c5Task2 : Task :=
  { id := 2, energyLevel := some .high, deadline := none, preferredDays := [],
    scheduledDate := some 4, completed := false, autoScheduled := false }

/-- Third task of the C5 witness scenario. -/
def c5Task3 : Task :=
  { id := 3, energyLevel := some .high, deadline := none, preferredDays := [],
    scheduledDate := some 5, completed := false, autoScheduled := false }

/-- Fourth task of the C5 witness scenario. -/
def c5Task4 : Task :=
  { id := 4, energyLevel := some .high, deadline := none, preferredDays := [],
    scheduledDate := some 6, completed := false, autoScheduled := false }

/-- Witness for C5 at concrete inputs: one logged cycle starting day 3 with
a 5-day menstrual window [3, 7] within the next 30 days from today = 0. -/
theorem c5_overload_and_mismatch_warnings_witness :
    (detectOverloadSituations [c5Task1, c5Task2, c5Task3, c5Task4] [witnessCycle]
        emptyPrefs 0).countP Warning.isOverload = 1 ∧
      (∀ w ∈ detectOverloadSituations [c5Task1, c5Task2, c5Task3, c5Task4] [witnessCycle]
          emptyPrefs 0, w.isOverload = true → w.severity = Severity.high) ∧
      (detectOverloadSituations [c5Task1, c5Task2, c5Task3, c5Task4] [witnessCycle]
        emptyPrefs 0).countP Warning.isEnergyMismatch = 4 :=
  c5_overload_and_mismatch_warnings [witnessCycle] emptyPrefs 0 3 c5Task1 c5Task2 c5Task3
    c5Task4
    ⟨witnessCycle, by simp, calculatePhasesFromStart 3 5 28, rfl, by decide⟩
    (by decide) (by decide) (by decide)
    ⟨rfl, rfl, 3, rfl, by decide, by decide⟩
    ⟨rfl, rfl, 4, rfl, by decide, by decide⟩
    ⟨rfl, rfl, 5, rfl, by decide, by decide⟩
    ⟨rfl, rfl, 6, rfl, by decide, by decide⟩

end Luma
